import Mathlib

/-!
Verification of the AutoMapper suggestion engine of the crosswalk-ai
repository (backend/datascience/auto_mapper.py).

The Python code is shallowly embedded over lists and exact rationals:

* Python floats become exact rationals; the float literals 0.4, 0.2, ...
  are written as the corresponding rationals.
* Python strings become Lean String values; the Python string built-ins
  used by the code (str.lower, str.strip, str.split, substring tests)
  are modelled by structural functions over the character list, covering
  the ASCII behaviour the column names and patterns exercise.
* The fixed regular expressions of the pattern library are translated
  into executable matchers over character lists; every regex used by the
  code is anchored at both ends, so each matcher decides full-string
  matching.  Maximal-munch parsing agrees with the regex semantics here
  because each digit run is delimited by a non-digit character.
* The external scorers (fuzzywuzzy percentages, TF-IDF cosine) are kept
  abstract as oracle records; theorems assume only their documented
  ranges (0..100 integer percent, cosine in [0,1], possible failure).
* The duckdb tables are modelled as an explicit map from database path
  to the list of mapping_corrections rows, so that both default paths
  appearing in the source can be distinguished.
-/

/-- Model of Python str.lower for a single ASCII character. -/
def lowerChar (c : Char) : Char :=
  if 'A' ≤ c ∧ c ≤ 'Z' then Char.ofNat (c.toNat + 32) else c

/-- Model of Python str.lower. -/
def strLower (s : String) : String :=
  String.mk (s.data.map lowerChar)

/-- Model of Python str.strip on a character list. -/
def trimChars (cs : List Char) : List Char :=
  ((cs.dropWhile Char.isWhitespace).reverse.dropWhile Char.isWhitespace).reverse

/-- Model of Python str.strip. -/
def strTrim (s : String) : String :=
  String.mk (trimChars s.data)

/-- Does the haystack start with the needle. -/
def listStartsWith : List Char → List Char → Bool
  | [], _ => true
  | _ :: _, [] => false
  | a :: as, b :: bs => a == b && listStartsWith as bs

/-- Model of the Python substring test (needle in haystack). -/
def listContainsSub (needle : List Char) : List Char → Bool
  | [] => needle.isEmpty
  | b :: bs => listStartsWith needle (b :: bs) || listContainsSub needle bs

/-- Model of Python str.split(sep) for a one-character separator. -/
def splitOnChar (sep : Char) : List Char → List (List Char)
  | [] => [[]]
  | c :: rest =>
    match splitOnChar sep rest with
    | [] => [[c]]
    | g :: gs => if c == sep then [] :: g :: gs else (c :: g) :: gs

/-- Model of Python str.split("_") used for the pattern-type keywords. -/
def splitUnderscore (s : String) : List String :=
  (splitOnChar '_' s.data).map String.mk

/-- Characters matched by the regex class backslash-w (ASCII model). -/
def wordChar (c : Char) : Bool :=
  c.isAlpha || c.isDigit || c == '_'

/-- Matcher for an anchored digit run whose length lies in [lo, hi]. -/
def digitsBetween (lo hi : Nat) (cs : List Char) : Bool :=
  cs.all Char.isDigit && decide (lo ≤ cs.length) && decide (cs.length ≤ hi)

/-- Pattern library regex (claim_number, 2nd): word run 5..15, dash, word run 3..10. -/
def mClaimDash (cs : List Char) : Bool :=
  match cs.dropWhile wordChar with
  | '-' :: tail =>
    decide (5 ≤ (cs.takeWhile wordChar).length) &&
    decide ((cs.takeWhile wordChar).length ≤ 15) &&
    tail.all wordChar && decide (3 ≤ tail.length) && decide (tail.length ≤ 10)
  | _ => false

/-- Pattern library regex (member_id, 2nd): two capitals then 6..10 digits. -/
def mMemberAlpha (cs : List Char) : Bool :=
  match cs with
  | c1 :: c2 :: rest =>
    (decide ('A' ≤ c1) && decide (c1 ≤ 'Z')) &&
    (decide ('A' ≤ c2) && decide (c2 ≤ 'Z')) &&
    rest.all Char.isDigit && decide (6 ≤ rest.length) && decide (rest.length ≤ 10)
  | _ => false

/-- Pattern library regex (date, 1st): 4 digits, dash, 2 digits, dash, 2 digits. -/
def mDateIso (cs : List Char) : Bool :=
  match cs.dropWhile Char.isDigit with
  | '-' :: r1 =>
    (match r1.dropWhile Char.isDigit with
     | '-' :: r2 =>
       decide ((cs.takeWhile Char.isDigit).length = 4) &&
       decide ((r1.takeWhile Char.isDigit).length = 2) &&
       r2.all Char.isDigit && decide (r2.length = 2)
     | _ => false)
  | _ => false

/-- Pattern library regex (date, 2nd): 1-2 digits, slash, 1-2 digits, slash, 4 digits. -/
def mDateSlash (cs : List Char) : Bool :=
  match cs.dropWhile Char.isDigit with
  | '/' :: r1 =>
    (match r1.dropWhile Char.isDigit with
     | '/' :: r2 =>
       decide (1 ≤ (cs.takeWhile Char.isDigit).length) &&
       decide ((cs.takeWhile Char.isDigit).length ≤ 2) &&
       decide (1 ≤ (r1.takeWhile Char.isDigit).length) &&
       decide ((r1.takeWhile Char.isDigit).length ≤ 2) &&
       r2.all Char.isDigit && decide (r2.length = 4)
     | _ => false)
  | _ => false

/-- Tail of the formatted phone regex: 3 digits, dash, 4 digits. -/
def phoneTail (cs : List Char) : Bool :=
  match cs with
  | [a, b, c, '-', w, x, y, z] =>
    a.isDigit && b.isDigit && c.isDigit &&
    w.isDigit && x.isDigit && y.isDigit && z.isDigit
  | _ => false

/-- Pattern library regex (phone, 2nd): (3 digits) optional space 3 digits dash 4 digits. -/
def mPhoneParen (cs : List Char) : Bool :=
  match cs with
  | '(' :: d1 :: d2 :: d3 :: ')' :: rest =>
    d1.isDigit && d2.isDigit && d3.isDigit &&
    (match rest with
     | c :: r => if c.isWhitespace then phoneTail r else phoneTail rest
     | [] => false)
  | _ => false

/-- Pattern library regex (amount, 1st): digits, dot, exactly 2 digits. -/
def mAmountDot (cs : List Char) : Bool :=
  match cs.dropWhile Char.isDigit with
  | '.' :: tail =>
    decide (1 ≤ (cs.takeWhile Char.isDigit).length) &&
    tail.all Char.isDigit && decide (tail.length = 2)
  | _ => false

/-- Body of the loose amount regex after the optional dollar sign:
digits, optional comma, digits, optional dot, digits. -/
def amountLooseBody (cs : List Char) : Bool :=
  let r1 := cs.dropWhile Char.isDigit
  if (cs.takeWhile Char.isDigit).isEmpty then false
  else
    let r2 := match r1 with
      | ',' :: t => t
      | _ => r1
    let r3 := r2.dropWhile Char.isDigit
    let r4 := match r3 with
      | '.' :: t => t
      | _ => r3
    (r4.dropWhile Char.isDigit).isEmpty

/-- Pattern library regex (amount, 2nd): optional dollar sign then loose number body. -/
def mAmountLoose (cs : List Char) : Bool :=
  match cs with
  | '$' :: rest => amountLooseBody rest
  | _ => amountLooseBody cs

/-- Pattern library regex (zip_code): 5 digits with an optional dash-4 extension. -/
def mZip (cs : List Char) : Bool :=
  decide ((cs.takeWhile Char.isDigit).length = 5) &&
  (match cs.dropWhile Char.isDigit with
   | [] => true
   | '-' :: tail => tail.all Char.isDigit && decide (tail.length = 4)
   | _ => false)

/-- Pattern library regex (tax_id, 1st): 2 digits, dash, 7 digits. -/
def mTaxDash (cs : List Char) : Bool :=
  decide ((cs.takeWhile Char.isDigit).length = 2) &&
  (match cs.dropWhile Char.isDigit with
   | '-' :: tail => tail.all Char.isDigit && decide (tail.length = 7)
   | _ => false)

/-- A sample value matches a pattern category when any of its regexes matches
(the inner break in analyze_data_patterns). -/
def valueMatches (regexes : List (List Char → Bool)) (v : String) : Bool :=
  regexes.any (fun m => m v.data)

/-- The fixed pattern library of AutoMapper.__init__, in dict insertion order;
each category maps to the matchers of its regex list. -/
def patternLibrary : List (String × List (List Char → Bool)) :=
  [("claim_number", [digitsBetween 5 20, mClaimDash]),
   ("member_id", [digitsBetween 8 12, mMemberAlpha]),
   ("date", [mDateIso, mDateSlash]),
   ("phone", [digitsBetween 10 10, mPhoneParen]),
   ("amount", [mAmountDot, mAmountLoose]),
   ("zip_code", [mZip]),
   ("npi", [digitsBetween 10 10]),
   ("tax_id", [mTaxDash, digitsBetween 9 9])]

/-- MappingSuggestion dataclass: a mapping suggestion with confidence score. -/
structure MappingSuggestion where
  source_column : String
  target_column : String
  target_table : String
  confidence : ℚ
  reasoning : String
  data_type : String
deriving DecidableEq

/-- DataModelField dataclass: a field in the data model. -/
structure DataModelField where
  table : String
  column : String
  description : String
  data_type : String
deriving DecidableEq

/-- A row of the mapping_corrections table, as loaded by load_correction_history. -/
structure Correction where
  source_column : String
  correct_target_table : String
  correct_target_column : String
  incorrect_suggestion : String
deriving DecidableEq

/-- Abstract interface for the fuzzywuzzy scorers used by the code; each
returns an integer percentage. -/
structure FuzzApi where
  ratioPct : String → String → ℕ
  partialPct : String → String → ℕ
  tokenSortPct : String → String → ℕ

/-- The documented range of the fuzzywuzzy scorers: percentages in 0..100. -/
def FuzzApi.Bounded (fz : FuzzApi) : Prop :=
  (∀ a b, fz.ratioPct a b ≤ 100) ∧
  (∀ a b, fz.partialPct a b ≤ 100) ∧
  (∀ a b, fz.tokenSortPct a b ≤ 100)

/-- Abstract interface for the TF-IDF cosine-similarity computation; none
models the exception branch that get_semantic_similarity swallows. -/
structure TfidfApi where
  cosine : String → String → Option ℚ

/-- Documented range of a cosine similarity between TF-IDF vectors. -/
def TfidfApi.Bounded (tf : TfidfApi) : Prop :=
  ∀ a b r, tf.cosine a b = some r → 0 ≤ r ∧ r ≤ 1

/-- The in-memory state of an AutoMapper instance.  The duckdb databases are
modelled as a map from database path to the rows of mapping_corrections. -/
structure MapperState where
  db_url : Option String
  stores : String → List Correction
  data_model_fields : List DataModelField
  correction_history : List Correction
  pattern_library : List (String × List (List Char → Bool))

/-- Database path used by load_correction_history (db_url or the literal
default of that method). -/
def loadDbPath (st : MapperState) : String :=
  st.db_url.getD "database/crosswalk.duckdb"

/-- Database path used by record_correction (db_url or the literal default
of that method, which differs from the loader default). -/
def recordDbPath (st : MapperState) : String :=
  st.db_url.getD "backend/database/crosswalk.duckdb"

/-- load_correction_history: reload the in-memory corrections from the
mapping_corrections table of the loader database. -/
def load_correction_history (st : MapperState) : MapperState :=
  { st with correction_history := st.stores (loadDbPath st) }

/-- record_correction (success path): insert one row into mapping_corrections
of the recorder database, then reload the correction history. -/
def record_correction (st : MapperState) (source_column correct_table correct_column : String)
    (incorrect_suggestion : Option String) : MapperState :=
  let row : Correction :=
    ⟨source_column, correct_table, correct_column, incorrect_suggestion.getD ""⟩
  let path := recordDbPath st
  load_correction_history
    { st with stores := fun p => if p = path then st.stores p ++ [row] else st.stores p }

/-- The cleaned sample list of analyze_data_patterns: drop None values,
stringify (values are modelled as strings already) and strip. -/
def cleanValues (sample_values : List (Option String)) : List String :=
  (sample_values.filterMap id).map strTrim

/-- analyze_data_patterns: per-category fraction of the first 10 cleaned
sample values matching one of the category regexes.  The source guards the
dict assignment with the same clean_values test on every iteration, which
is equivalent to the single outer test used here. -/
def analyze_data_patterns (lib : List (String × List (List Char → Bool)))
    (sample_values : List (Option String)) : List (String × ℚ) :=
  if sample_values.isEmpty then []
  else
    let clean := cleanValues sample_values
    if clean.isEmpty then []
    else
      lib.map (fun cat =>
        (cat.1,
         (((clean.take 10).filter (fun v => valueMatches cat.2 v)).length : ℚ) /
           (min clean.length 10 : ℚ)))

/-- Column-name normalisation of calculate_string_similarity: lowercase and
drop underscores, whitespace and dashes. -/
def normalizeColumnName (s : String) : String :=
  String.mk ((strLower s).data.filter
    (fun c => !(c == '_' || c.isWhitespace || c == '-')))

/-- calculate_string_similarity: weighted blend of the three fuzzywuzzy
scores on normalised and lowercased column names. -/
def calculate_string_similarity (fz : FuzzApi) (source_col target_col : String) : ℚ :=
  let source_norm := normalizeColumnName source_col
  let target_norm := normalizeColumnName target_col
  let ratioPart := (fz.ratioPct source_norm target_norm : ℚ) / 100
  let partialPart := (fz.partialPct source_norm target_norm : ℚ) / 100
  let tokenSortPart := (fz.tokenSortPct (strLower source_col) (strLower target_col) : ℚ) / 100
  (4 / 10) * ratioPart + (3 / 10) * partialPart + (3 / 10) * tokenSortPart

/-- get_semantic_similarity: zero on an empty description, the TF-IDF cosine
on the lowercased texts otherwise, and zero when that computation fails. -/
def get_semantic_similarity (tf : TfidfApi) (source_desc target_desc : String) : ℚ :=
  if source_desc.data.isEmpty || target_desc.data.isEmpty then 0
  else
    match tf.cosine (strLower source_desc) (strLower target_desc) with
    | some r => r
    | none => 0

/-- One loop iteration of apply_learning_boost: add 0.3 for an exact past
correction to the same target, and another 0.1 when the past source column
is fuzzy-similar (ratio above 80) and maps to the same target. -/
def correctionBoostStep (fz : FuzzApi) (source_col : String) (target_field : DataModelField)
    (boost : ℚ) (c : Correction) : ℚ :=
  let afterExact :=
    if strLower c.source_column = strLower source_col ∧
       c.correct_target_table = target_field.table ∧
       c.correct_target_column = target_field.column
    then boost + 3 / 10 else boost
  if 80 < fz.ratioPct (strLower c.source_column) (strLower source_col) ∧
     c.correct_target_table = target_field.table ∧
     c.correct_target_column = target_field.column
  then afterExact + 1 / 10 else afterExact

/-- apply_learning_boost: accumulate the per-correction increments over the
history and cap the total at 0.5. -/
def apply_learning_boost (fz : FuzzApi) (history : List Correction)
    (source_col : String) (target_field : DataModelField) : ℚ :=
  min (history.foldl (correctionBoostStep fz source_col target_field) 0) (1 / 2)

/-- The contribution of one correction row, as a closed form of the loop
iteration of apply_learning_boost (0.3 and 0.1 are not exclusive: an exact
match also passes the fuzzy test when the scorer reports 100). -/
def correctionIncrement (fz : FuzzApi) (source_col : String) (target_field : DataModelField)
    (c : Correction) : ℚ :=
  (if strLower c.source_column = strLower source_col ∧
      c.correct_target_table = target_field.table ∧
      c.correct_target_column = target_field.column
   then 3 / 10 else 0) +
  (if 80 < fz.ratioPct (strLower c.source_column) (strLower source_col) ∧
      c.correct_target_table = target_field.table ∧
      c.correct_target_column = target_field.column
   then 1 / 10 else 0)

/-- Does a pattern category apply to a target column: the category name, or
one of its underscore-separated keywords, occurs in the lowercased name. -/
def typeApplies (pattern_type : String) (field_name_lower : String) : Bool :=
  listContainsSub pattern_type.data field_name_lower.data ||
  (splitUnderscore pattern_type).any
    (fun kw => listContainsSub kw.data field_name_lower.data)

/-- The pattern-boost loop of generate_mapping_suggestions: 0.2 times the
category score, summed over the categories applying to the target column. -/
def patternBoost (pattern_scores : List (String × ℚ)) (field_name_lower : String) : ℚ :=
  pattern_scores.foldl
    (fun acc p => if typeApplies p.1 field_name_lower then acc + p.2 * (2 / 10) else acc) 0

/-- The final confidence blend of generate_mapping_suggestions. -/
def confidence_score (fz : FuzzApi) (tf : TfidfApi) (history : List Correction)
    (pattern_scores : List (String × ℚ)) (source_column : String)
    (target_field : DataModelField) : ℚ :=
  (4 / 10) * calculate_string_similarity fz source_column target_field.column +
  (2 / 10) * get_semantic_similarity tf source_column target_field.description +
  (2 / 10) * patternBoost pattern_scores (strLower target_field.column) +
  (2 / 10) * apply_learning_boost fz history source_column target_field

/-- Integer percent rendering of the reasoning string (the Python format
spec .0 percent, up to the tie behaviour of binary floats). -/
def percentText (q : ℚ) : String :=
  toString (round (q * 100) : ℤ) ++ "%"

/-- First maximal-score category of pattern_scores (Python max keeps the
first maximum). -/
def bestPattern : List (String × ℚ) → Option String
  | [] => none
  | p :: rest => some ((rest.foldl (fun acc q => if acc.2 < q.2 then q else acc) p).1)

/-- The reasoning string generated for one candidate target field. -/
def reasoningText (fz : FuzzApi) (tf : TfidfApi) (history : List Correction)
    (pattern_scores : List (String × ℚ)) (source_column : String)
    (target_field : DataModelField) : String :=
  let name_similarity := calculate_string_similarity fz source_column target_field.column
  let semantic_similarity := get_semantic_similarity tf source_column target_field.description
  let learning_boost := apply_learning_boost fz history source_column target_field
  let pattern_boost := patternBoost pattern_scores (strLower target_field.column)
  let parts : List String :=
    (if (6 : ℚ) / 10 < name_similarity
     then ["Column name match (" ++ percentText name_similarity ++ ")"] else []) ++
    (if (1 : ℚ) / 10 < pattern_boost then
       match bestPattern pattern_scores with
       | some bp => ["Data pattern suggests " ++ bp]
       | none => []
     else []) ++
    (if (1 : ℚ) / 10 < learning_boost then ["Previously learned mapping"] else []) ++
    (if (3 : ℚ) / 10 < semantic_similarity then ["Description similarity"] else [])
  if parts.isEmpty then "Basic similarity match" else String.intercalate " • " parts

/-- Stable descending insertion by confidence: the new element goes in
front of the first element whose confidence is not larger. -/
def insertByConf (s : MappingSuggestion) : List MappingSuggestion → List MappingSuggestion
  | [] => [s]
  | t :: rest =>
    if t.confidence ≤ s.confidence then s :: t :: rest else t :: insertByConf s rest

/-- Stable descending sort by confidence, modelling the stable Python
list.sort with reverse=True; a stable sort is determined by its input, so
this insertion sort computes the same list as the sort in the source. -/
def sortByConfDesc : List MappingSuggestion → List MappingSuggestion
  | [] => []
  | s :: rest => insertByConf s (sortByConfDesc rest)

/-- generate_mapping_suggestions: score every data-model field, keep the
candidates above the 0.1 confidence floor, sort descending by confidence
and return the first 5. -/
def generate_mapping_suggestions (fz : FuzzApi) (tf : TfidfApi) (st : MapperState)
    (source_column : String) (sample_values : Option (List (Option String))) :
    List MappingSuggestion :=
  let pattern_scores := analyze_data_patterns st.pattern_library (sample_values.getD [])
  let suggestions := st.data_model_fields.filterMap (fun target_field =>
    let confidence := confidence_score fz tf st.correction_history pattern_scores
      source_column target_field
    if (1 : ℚ) / 10 < confidence then
      some
        { source_column := source_column
          target_column := target_field.column
          target_table := target_field.table
          confidence := confidence
          reasoning := reasoningText fz tf st.correction_history pattern_scores
            source_column target_field
          data_type := target_field.data_type }
    else none)
  (sortByConfDesc suggestions).take 5

/-- The method returns its suggestion list and writes no field of self;
the state component records that frame. -/
def generate_mapping_suggestions_call (fz : FuzzApi) (tf : TfidfApi) (st : MapperState)
    (source_column : String) (sample_values : Option (List (Option String))) :
    List MappingSuggestion × MapperState :=
  (generate_mapping_suggestions fz tf st source_column sample_values, st)

/-- One column record of bulk_suggest_mappings, with the dict.get defaults
of the source. -/
structure ColumnInfo where
  column_name : String
  sample_values : List (Option String)
deriving DecidableEq

/-- Python dict assignment d[k] = v: overwrite in place, else append. -/
def dictInsert {β : Type} (d : List (String × β)) (k : String) (v : β) :
    List (String × β) :=
  if k ∈ d.map Prod.fst then
    d.map (fun p => if p.1 = k then (k, v) else p)
  else d ++ [(k, v)]

/-- Lookup in the association-list model of a Python dict. -/
def dlookup {β : Type} (k : String) : List (String × β) → Option β
  | [] => none
  | p :: rest => if p.1 = k then some p.2 else dlookup k rest

/-- bulk_suggest_mappings: one dict entry per non-empty column name, each
holding the suggestions for that name and its sample values. -/
def bulk_suggest_mappings (fz : FuzzApi) (tf : TfidfApi) (st : MapperState)
    (source_columns : List ColumnInfo) : List (String × List MappingSuggestion) :=
  source_columns.foldl
    (fun results col_info =>
      if col_info.column_name = "" then results
      else
        dictInsert results col_info.column_name
          (generate_mapping_suggestions fz tf st col_info.column_name
            (some col_info.sample_values)))
    []

/-- Proof-side core of analyze_data_patterns: the same scores, computed from
the first 10 cleaned values only. -/
def analyzeCore (lib : List (String × List (List Char → Bool))) (t : List String) :
    List (String × ℚ) :=
  if t.isEmpty then []
  else
    lib.map (fun cat =>
      (cat.1, (((t.filter (fun v => valueMatches cat.2 v)).length : ℚ) / (t.length : ℚ))))

/-- Concrete fuzzywuzzy oracle for witness instances: 100 on equal inputs. -/
def fzK : FuzzApi :=
  ⟨fun a b => if a == b then 100 else 0,
   fun a b => if a == b then 100 else 0,
   fun a b => if a == b then 100 else 0⟩

/-- Concrete TF-IDF oracle for witness instances: the computation fails. -/
def tfK : TfidfApi := ⟨fun _ _ => none⟩

/-- Concrete data-model field for witness instances. -/
def fdK : DataModelField := ⟨"MEMBER", "member_id", "", "VARCHAR"⟩

/-- Concrete correction row for witness instances. -/
def corrK : Correction := ⟨"member_id", "MEMBER", "member_id", ""⟩

/-- Concrete mapper state for witness instances (explicit db_url, so both
database paths coincide). -/
def stK : MapperState := ⟨some "db", fun _ => [], [fdK], [], patternLibrary⟩

/-- Concrete mapper state exercising the default database paths. -/
def stBug : MapperState := ⟨none, fun _ => [], [], [], patternLibrary⟩

/-- Placeholder suggestion for headD. -/
def defaultSug : MappingSuggestion := ⟨"", "", "", 0, "", ""⟩

/-- First suggestion returned on the concrete witness state. -/
def sugK : MappingSuggestion :=
  (generate_mapping_suggestions fzK tfK stK "member_id" none).headD defaultSug

/-- First pattern score computed on a concrete sample list. -/
def pK : String × ℚ :=
  (analyze_data_patterns patternLibrary [some "12345"]).headD ("", 0)

/-- Concrete column list for the bulk witness: one named column, one
record without a column name. -/
def colsK : List ColumnInfo := [⟨"member_id", []⟩, ⟨"", [some "x"]⟩]

theorem headD_mem {α : Type} (l : List α) (d : α) (h : l ≠ []) : l.headD d ∈ l := by
  cases l with
  | nil => exact absurd rfl h
  | cons a t => simp [List.headD]

theorem mem_insertByConf {t s : MappingSuggestion} {l : List MappingSuggestion} :
    t ∈ insertByConf s l ↔ t = s ∨ t ∈ l := by
  induction l with
  | nil => simp [insertByConf]
  | cons a rest ih =>
    by_cases h : a.confidence ≤ s.confidence
    · simp only [insertByConf, if_pos h, List.mem_cons]
    · simp only [insertByConf, if_neg h, List.mem_cons, ih]
      tauto

theorem pairwise_insertByConf {s : MappingSuggestion} {l : List MappingSuggestion}
    (h : List.Pairwise (fun a b => b.confidence ≤ a.confidence) l) :
    List.Pairwise (fun a b => b.confidence ≤ a.confidence) (insertByConf s l) := by
  induction l with
  | nil => simp [insertByConf]
  | cons a rest ih =>
    rcases List.pairwise_cons.mp h with ⟨ha, hrest⟩
    by_cases hc : a.confidence ≤ s.confidence
    · rw [insertByConf, if_pos hc]
      refine List.pairwise_cons.mpr ⟨?_, h⟩
      intro b hb
      rcases List.mem_cons.mp hb with rfl | hb2
      · exact hc
      · exact le_trans (ha b hb2) hc
    · rw [insertByConf, if_neg hc]
      refine List.pairwise_cons.mpr ⟨?_, ih hrest⟩
      intro b hb
      rcases mem_insertByConf.mp hb with rfl | hb2
      · exact le_of_lt (lt_of_not_le hc)
      · exact ha b hb2

theorem mem_sortByConfDesc {t : MappingSuggestion} {l : List MappingSuggestion} :
    t ∈ sortByConfDesc l ↔ t ∈ l := by
  induction l with
  | nil => simp [sortByConfDesc]
  | cons a rest ih =>
    rw [sortByConfDesc]
    simp [mem_insertByConf, ih]

theorem pairwise_sortByConfDesc (l : List MappingSuggestion) :
    List.Pairwise (fun a b => b.confidence ≤ a.confidence) (sortByConfDesc l) := by
  induction l with
  | nil => simp [sortByConfDesc]
  | cons a rest ih =>
    rw [sortByConfDesc]
    exact pairwise_insertByConf ih

theorem correctionBoostStep_eq (fz : FuzzApi) (source_col : String) (f : DataModelField)
    (b : ℚ) (c : Correction) :
    correctionBoostStep fz source_col f b c = b + correctionIncrement fz source_col f c := by
  simp only [correctionBoostStep, correctionIncrement]
  split_ifs <;> ring

theorem foldl_correctionBoostStep (fz : FuzzApi) (source_col : String) (f : DataModelField) :
    ∀ (l : List Correction) (b : ℚ),
      l.foldl (correctionBoostStep fz source_col f) b =
        b + (l.map (correctionIncrement fz source_col f)).sum := by
  intro l
  induction l with
  | nil => intro b; simp
  | cons c rest ih =>
    intro b
    simp only [List.foldl_cons, List.map_cons, List.sum_cons]
    rw [correctionBoostStep_eq, ih]
    ring

theorem correctionIncrement_nonneg (fz : FuzzApi) (source_col : String) (f : DataModelField)
    (c : Correction) : 0 ≤ correctionIncrement fz source_col f c := by
  unfold correctionIncrement
  split_ifs <;> norm_num

theorem correctionIncrement_exact_ge (fz : FuzzApi) (source_col : String) (f : DataModelField)
    (isug : String) :
    3 / 10 ≤ correctionIncrement fz source_col f ⟨source_col, f.table, f.column, isug⟩ := by
  unfold correctionIncrement
  rw [if_pos ⟨rfl, rfl, rfl⟩]
  split_ifs <;> norm_num

theorem apply_learning_boost_eq (fz : FuzzApi) (history : List Correction)
    (source_col : String) (f : DataModelField) :
    apply_learning_boost fz history source_col f =
      min ((history.map (correctionIncrement fz source_col f)).sum) (1 / 2) := by
  unfold apply_learning_boost
  rw [foldl_correctionBoostStep, zero_add]

theorem sum_increments_nonneg (fz : FuzzApi) (history : List Correction)
    (source_col : String) (f : DataModelField) :
    0 ≤ (history.map (correctionIncrement fz source_col f)).sum := by
  refine List.sum_nonneg ?_
  intro x hx
  rcases List.mem_map.mp hx with ⟨c, _, rfl⟩
  exact correctionIncrement_nonneg _ _ _ _

theorem apply_learning_boost_nonneg (fz : FuzzApi) (history : List Correction)
    (source_col : String) (f : DataModelField) :
    0 ≤ apply_learning_boost fz history source_col f := by
  rw [apply_learning_boost_eq]
  exact le_min (sum_increments_nonneg fz history source_col f) (by norm_num)

theorem apply_learning_boost_le_half (fz : FuzzApi) (history : List Correction)
    (source_col : String) (f : DataModelField) :
    apply_learning_boost fz history source_col f ≤ 1 / 2 :=
  min_le_right _ _

theorem calculate_string_similarity_nonneg (fz : FuzzApi) (s t : String) :
    0 ≤ calculate_string_similarity fz s t := by
  unfold calculate_string_similarity
  positivity

theorem calculate_string_similarity_le_one (fz : FuzzApi) (hfz : fz.Bounded) (s t : String) :
    calculate_string_similarity fz s t ≤ 1 := by
  obtain ⟨h1, h2, h3⟩ := hfz
  unfold calculate_string_similarity
  have e1 : (fz.ratioPct (normalizeColumnName s) (normalizeColumnName t) : ℚ) ≤ 100 := by
    exact_mod_cast h1 _ _
  have e2 : (fz.partialPct (normalizeColumnName s) (normalizeColumnName t) : ℚ) ≤ 100 := by
    exact_mod_cast h2 _ _
  have e3 : (fz.tokenSortPct (strLower s) (strLower t) : ℚ) ≤ 100 := by
    exact_mod_cast h3 _ _
  have n1 : (0 : ℚ) ≤ (fz.ratioPct (normalizeColumnName s) (normalizeColumnName t) : ℚ) :=
    Nat.cast_nonneg _
  have n2 : (0 : ℚ) ≤ (fz.partialPct (normalizeColumnName s) (normalizeColumnName t) : ℚ) :=
    Nat.cast_nonneg _
  have n3 : (0 : ℚ) ≤ (fz.tokenSortPct (strLower s) (strLower t) : ℚ) :=
    Nat.cast_nonneg _
  linarith

theorem get_semantic_similarity_nonneg (tf : TfidfApi) (htf : tf.Bounded) (a b : String) :
    0 ≤ get_semantic_similarity tf a b := by
  unfold get_semantic_similarity
  split_ifs with h
  · exact le_refl 0
  · cases hc : tf.cosine (strLower a) (strLower b) with
    | none => exact le_refl 0
    | some r => exact (htf _ _ _ hc).1

theorem get_semantic_similarity_le_one (tf : TfidfApi) (htf : tf.Bounded) (a b : String) :
    get_semantic_similarity tf a b ≤ 1 := by
  unfold get_semantic_similarity
  split_ifs with h
  · norm_num
  · cases hc : tf.cosine (strLower a) (strLower b) with
    | none => norm_num
    | some r => exact (htf _ _ _ hc).2

theorem analyze_eq_core (lib : List (String × List (List Char → Bool)))
    (sample_values : List (Option String)) :
    analyze_data_patterns lib sample_values =
      analyzeCore lib ((cleanValues sample_values).take 10) := by
  unfold analyze_data_patterns analyzeCore
  by_cases h0 : sample_values.isEmpty
  · rw [if_pos h0]
    have he : sample_values = [] := List.isEmpty_iff.mp h0
    subst he
    simp [cleanValues]
  · rw [if_neg h0]
    by_cases h1 : (cleanValues sample_values).isEmpty
    · rw [if_pos h1]
      have he : cleanValues sample_values = [] := List.isEmpty_iff.mp h1
      rw [he]
      simp
    · rw [if_neg h1]
      have hne : cleanValues sample_values ≠ [] := by
        intro he; rw [he] at h1; exact h1 rfl
      have htake : ¬((cleanValues sample_values).take 10).isEmpty = true := by
        rw [List.isEmpty_iff, List.take_eq_nil_iff]
        rintro (hz | hz)
        · exact absurd hz (by norm_num)
        · exact hne hz
      rw [if_neg htake]
      apply List.map_congr_left
      intro cat hcat
      have hlen : ((cleanValues sample_values).take 10).length =
          min (cleanValues sample_values).length 10 := by
        rw [List.length_take, Nat.min_comm]
      rw [hlen]
      push_cast
      rfl

theorem analyze_take10_determined (lib : List (String × List (List Char → Bool)))
    {s1 s2 : List (Option String)}
    (h : (cleanValues s1).take 10 = (cleanValues s2).take 10) :
    analyze_data_patterns lib s1 = analyze_data_patterns lib s2 := by
  rw [analyze_eq_core, analyze_eq_core, h]

theorem analyzeCore_score_bounds (lib : List (String × List (List Char → Bool)))
    (t : List String) : ∀ p ∈ analyzeCore lib t, 0 ≤ p.2 ∧ p.2 ≤ 1 := by
  intro p hp
  unfold analyzeCore at hp
  split_ifs at hp with h
  · simp at hp
  · rcases List.mem_map.mp hp with ⟨cat, hc, rfl⟩
    have hne : t ≠ [] := by
      intro he; rw [he] at h; exact h rfl
    have hlen : 0 < t.length := List.length_pos.mpr hne
    have hlenQ : (0 : ℚ) < (t.length : ℚ) := by exact_mod_cast hlen
    constructor
    · exact div_nonneg (Nat.cast_nonneg _) (le_of_lt hlenQ)
    · rw [div_le_one hlenQ]
      exact_mod_cast List.length_filter_le _ _

theorem analyze_score_bounds (lib : List (String × List (List Char → Bool)))
    (sample_values : List (Option String)) :
    ∀ p ∈ analyze_data_patterns lib sample_values, 0 ≤ p.2 ∧ p.2 ≤ 1 := by
  rw [analyze_eq_core]
  exact analyzeCore_score_bounds lib _

theorem patternBoost_foldl_bounds (field_name_lower : String) :
    ∀ (ps : List (String × ℚ)) (b : ℚ), (∀ p ∈ ps, 0 ≤ p.2) →
      b ≤ ps.foldl
            (fun acc p => if typeApplies p.1 field_name_lower then acc + p.2 * (2 / 10) else acc)
            b ∧
      ps.foldl
          (fun acc p => if typeApplies p.1 field_name_lower then acc + p.2 * (2 / 10) else acc)
          b ≤
        b + (2 / 10) * (ps.map Prod.snd).sum := by
  intro ps
  induction ps with
  | nil => intro b h; simp
  | cons p rest ih =>
    intro b h
    have hp : 0 ≤ p.2 := h p (by simp)
    have hrest : ∀ q ∈ rest, 0 ≤ q.2 := fun q hq => h q (by simp [hq])
    simp only [List.foldl_cons, List.map_cons, List.sum_cons]
    by_cases hap : typeApplies p.1 field_name_lower = true
    · rw [if_pos hap]
      rcases ih (b + p.2 * (2 / 10)) hrest with ⟨l, r⟩
      exact ⟨by linarith, by linarith⟩
    · rw [if_neg hap]
      rcases ih b hrest with ⟨l, r⟩
      exact ⟨l, by linarith⟩

theorem patternBoost_nonneg (ps : List (String × ℚ)) (field_name_lower : String)
    (h : ∀ p ∈ ps, 0 ≤ p.2) : 0 ≤ patternBoost ps field_name_lower :=
  (patternBoost_foldl_bounds field_name_lower ps 0 h).1

theorem patternBoost_le (ps : List (String × ℚ)) (field_name_lower : String)
    (h : ∀ p ∈ ps, 0 ≤ p.2) :
    patternBoost ps field_name_lower ≤ (2 / 10) * (ps.map Prod.snd).sum := by
  have hb := (patternBoost_foldl_bounds field_name_lower ps 0 h).2
  simpa [patternBoost] using hb

theorem length_filter_two_le {α : Type} (p q : α → Bool) (l : List α)
    (h : ∀ x ∈ l, ¬(p x = true ∧ q x = true)) :
    (l.filter p).length + (l.filter q).length ≤ l.length := by
  induction l with
  | nil => simp
  | cons a t ih =>
    have ht : ∀ x ∈ t, ¬(p x = true ∧ q x = true) := fun x hx => h x (by simp [hx])
    have ha := h a (by simp)
    have hlt := ih ht
    simp only [List.filter_cons, List.length_cons]
    by_cases hp : p a = true
    · have hq : ¬q a = true := fun hq => ha ⟨hp, hq⟩
      rw [if_pos hp, if_neg hq]
      simp only [List.length_cons]
      omega
    · rw [if_neg hp]
      by_cases hq : q a = true
      · rw [if_pos hq]
        simp only [List.length_cons]
        omega
      · rw [if_neg hq]
        omega

theorem mDateIso_allDigits {cs : List Char} (h : cs.all Char.isDigit = true) :
    mDateIso cs = false := by
  have hd : cs.dropWhile Char.isDigit = [] :=
    List.dropWhile_eq_nil_iff.mpr (fun x hx => List.all_eq_true.mp h x hx)
  unfold mDateIso
  rw [hd]

theorem mDateSlash_allDigits {cs : List Char} (h : cs.all Char.isDigit = true) :
    mDateSlash cs = false := by
  have hd : cs.dropWhile Char.isDigit = [] :=
    List.dropWhile_eq_nil_iff.mpr (fun x hx => List.all_eq_true.mp h x hx)
  unfold mDateSlash
  rw [hd]

theorem not_match_npi_and_date (v : String) :
    ¬(valueMatches [digitsBetween 10 10] v = true ∧
      valueMatches [mDateIso, mDateSlash] v = true) := by
  rintro ⟨h1, h2⟩
  have hall : v.data.all Char.isDigit = true := by
    simp only [valueMatches, List.any_cons, List.any_nil, Bool.or_false,
      digitsBetween, Bool.and_eq_true] at h1
    exact h1.1.1
  simp only [valueMatches, List.any_cons, List.any_nil, Bool.or_false,
    Bool.or_eq_true] at h2
  rcases h2 with h2 | h2
  · rw [mDateIso_allDigits hall] at h2
    exact Bool.false_ne_true h2
  · rw [mDateSlash_allDigits hall] at h2
    exact Bool.false_ne_true h2

theorem analyzeCore_patternLibrary_sum_le (t : List String) :
    ((analyzeCore patternLibrary t).map Prod.snd).sum ≤ 7 := by
  unfold analyzeCore
  split_ifs with h
  · simp
  · have hne : t ≠ [] := by intro he; rw [he] at h; exact h rfl
    have hpos : 0 < t.length := List.length_pos.mpr hne
    have hposQ : (0 : ℚ) < (t.length : ℚ) := by exact_mod_cast hpos
    have hle : ∀ rs : List (List Char → Bool),
        ((t.filter (fun v => valueMatches rs v)).length : ℚ) / (t.length : ℚ) ≤ 1 := by
      intro rs
      rw [div_le_one hposQ]
      exact_mod_cast List.length_filter_le _ _
    have hnd : ((t.filter (fun v => valueMatches [mDateIso, mDateSlash] v)).length : ℚ) /
          (t.length : ℚ) +
        ((t.filter (fun v => valueMatches [digitsBetween 10 10] v)).length : ℚ) /
          (t.length : ℚ) ≤ 1 := by
      rw [div_add_div_same, div_le_one hposQ]
      have hn := length_filter_two_le (fun v => valueMatches [digitsBetween 10 10] v)
        (fun v => valueMatches [mDateIso, mDateSlash] v) t
        (fun x _ => not_match_npi_and_date x)
      exact_mod_cast by omega
    simp only [patternLibrary, List.map_cons, List.map_nil, List.sum_cons, List.sum_nil]
    have b1 := hle [digitsBetween 5 20, mClaimDash]
    have b2 := hle [digitsBetween 8 12, mMemberAlpha]
    have b4 := hle [digitsBetween 10 10, mPhoneParen]
    have b5 := hle [mAmountDot, mAmountLoose]
    have b6 := hle [mZip]
    have b8 := hle [mTaxDash, digitsBetween 9 9]
    linarith

theorem patternBoost_canonical_le (sample_values : List (Option String))
    (field_name_lower : String) :
    patternBoost (analyze_data_patterns patternLibrary sample_values) field_name_lower ≤
      7 / 5 := by
  have h0 := analyze_score_bounds patternLibrary sample_values
  have h1 := patternBoost_le (analyze_data_patterns patternLibrary sample_values)
    field_name_lower (fun p hp => (h0 p hp).1)
  have h2 : ((analyze_data_patterns patternLibrary sample_values).map Prod.snd).sum ≤ 7 := by
    rw [analyze_eq_core]
    exact analyzeCore_patternLibrary_sum_le _
  linarith

theorem generate_mem_spec (fz : FuzzApi) (tf : TfidfApi) (st : MapperState)
    (source_column : String) (sample_values : Option (List (Option String))) :
    ∀ s ∈ generate_mapping_suggestions fz tf st source_column sample_values,
      ∃ f ∈ st.data_model_fields,
        s.source_column = source_column ∧ s.target_column = f.column ∧
        s.target_table = f.table ∧ s.data_type = f.data_type ∧
        s.confidence = confidence_score fz tf st.correction_history
          (analyze_data_patterns st.pattern_library (sample_values.getD []))
          source_column f ∧
        (1 : ℚ) / 10 < s.confidence := by
  intro s hs
  unfold generate_mapping_suggestions at hs
  have hs2 : s ∈ sortByConfDesc (st.data_model_fields.filterMap _) :=
    (List.take_sublist 5 _).subset hs
  have hs3 := mem_sortByConfDesc.mp hs2
  rcases List.mem_filterMap.mp hs3 with ⟨f, hf, hsome⟩
  simp only at hsome
  by_cases hc : (1 : ℚ) / 10 < confidence_score fz tf st.correction_history
      (analyze_data_patterns st.pattern_library (sample_values.getD []))
      source_column f
  · rw [if_pos hc] at hsome
    have hrec := Option.some.inj hsome
    rw [← hrec]
    exact ⟨f, hf, rfl, rfl, rfl, rfl, rfl, hc⟩
  · rw [if_neg hc] at hsome
    exact absurd hsome (by simp)

theorem map_fst_overwrite {β : Type} (k : String) (v : β) (d : List (String × β)) :
    (d.map (fun p => if p.1 = k then (k, v) else p)).map Prod.fst = d.map Prod.fst := by
  rw [List.map_map]
  apply List.map_congr_left
  intro p hp
  by_cases hk : p.1 = k
  · simp [hk]
  · simp [hk]

theorem dlookup_map_overwrite {β : Type} (k : String) (v : β) (k2 : String) (hk : k2 ≠ k) :
    ∀ d : List (String × β),
      dlookup k2 (d.map (fun p => if p.1 = k then (k, v) else p)) = dlookup k2 d := by
  intro d
  induction d with
  | nil => rfl
  | cons p rest ih =>
    simp only [List.map_cons, dlookup]
    by_cases hp : p.1 = k
    · have h1 : ¬(k = k2) := fun he => hk he.symm
      have h2 : ¬(p.1 = k2) := fun he => hk (he.symm.trans hp)
      rw [if_pos hp]
      simp [h1, h2, ih]
    · rw [if_neg hp]
      by_cases hp2 : p.1 = k2
      · simp [hp2]
      · simp [hp2, ih]

theorem dlookup_map_hit {β : Type} (k : String) (v : β) :
    ∀ d : List (String × β), k ∈ d.map Prod.fst →
      dlookup k (d.map (fun p => if p.1 = k then (k, v) else p)) = some v := by
  intro d
  induction d with
  | nil => intro h; simp at h
  | cons p rest ih =>
    intro h
    simp only [List.map_cons, dlookup]
    by_cases hp : p.1 = k
    · rw [if_pos hp]
      simp
    · rw [if_neg hp]
      have hmem : k ∈ rest.map Prod.fst := by
        rw [List.map_cons] at h
        rcases List.mem_cons.mp h with he | he
        · exact absurd he.symm hp
        · exact he
      simp [hp, ih hmem]

theorem dlookup_append_new {β : Type} (k : String) (v : β) (k2 : String) :
    ∀ d : List (String × β), k ∉ d.map Prod.fst →
      dlookup k2 (d ++ [(k, v)]) = if k2 = k then some v else dlookup k2 d := by
  intro d
  induction d with
  | nil =>
    intro _
    simp only [List.nil_append, dlookup]
    by_cases he : k = k2
    · rw [if_pos he, if_pos he.symm]
    · rw [if_neg he, if_neg (fun h2 => he h2.symm)]
  | cons p rest ih =>
    intro h
    have hpk : p.1 ≠ k := by
      intro he; exact h (by simp [he])
    have hrest : k ∉ rest.map Prod.fst := by
      intro he; exact h (by simp [he])
    simp only [List.cons_append, dlookup]
    by_cases hp2 : p.1 = k2
    · have hne : ¬(k2 = k) := fun he => hpk (hp2.trans he)
      rw [if_pos hp2, if_neg hne, if_pos hp2]
    · rw [if_neg hp2, List.append_eq, ih hrest]
      by_cases he : k2 = k
      · rw [if_pos he, if_pos he]
      · rw [if_neg he, if_neg he, if_neg hp2]

theorem dlookup_dictInsert {β : Type} (d : List (String × β)) (k k2 : String) (v : β) :
    dlookup k2 (dictInsert d k v) = if k2 = k then some v else dlookup k2 d := by
  unfold dictInsert
  by_cases hm : k ∈ d.map Prod.fst
  · rw [if_pos hm]
    by_cases he : k2 = k
    · rw [if_pos he, he]
      exact dlookup_map_hit k v d hm
    · rw [if_neg he]
      exact dlookup_map_overwrite k v k2 he d
  · rw [if_neg hm]
    exact dlookup_append_new k v k2 d hm

theorem mem_map_fst_dictInsert {β : Type} (d : List (String × β)) (k k2 : String) (v : β) :
    k2 ∈ (dictInsert d k v).map Prod.fst ↔ k2 ∈ d.map Prod.fst ∨ k2 = k := by
  unfold dictInsert
  by_cases hm : k ∈ d.map Prod.fst
  · rw [if_pos hm, map_fst_overwrite]
    constructor
    · exact Or.inl
    · rintro (h | rfl)
      · exact h
      · exact hm
  · rw [if_neg hm]
    simp

theorem nodup_map_fst_dictInsert {β : Type} (d : List (String × β)) (k : String) (v : β)
    (h : (d.map Prod.fst).Nodup) : ((dictInsert d k v).map Prod.fst).Nodup := by
  unfold dictInsert
  by_cases hm : k ∈ d.map Prod.fst
  · rw [if_pos hm, map_fst_overwrite]
    exact h
  · rw [if_neg hm]
    rw [List.map_append, List.nodup_append]
    refine ⟨h, by simp, ?_⟩
    intro x hx
    simp only [List.map_cons, List.map_nil, List.mem_singleton]
    intro he
    exact hm (he ▸ hx)

theorem dlookup_isSome_of_mem {β : Type} :
    ∀ (d : List (String × β)) (k : String), k ∈ d.map Prod.fst →
      ∃ v, dlookup k d = some v := by
  intro d
  induction d with
  | nil => intro k h; simp at h
  | cons p rest ih =>
    intro k h
    simp only [dlookup]
    by_cases hp : p.1 = k
    · rw [if_pos hp]
      exact ⟨p.2, rfl⟩
    · rw [if_neg hp]
      apply ih
      rw [List.map_cons] at h
      rcases List.mem_cons.mp h with he | he
      · exact absurd he.symm hp
      · exact he

theorem bulk_foldl_nodup (fz : FuzzApi) (tf : TfidfApi) (st : MapperState) :
    ∀ (cols : List ColumnInfo) (init : List (String × List MappingSuggestion)),
      (init.map Prod.fst).Nodup →
      ((cols.foldl
          (fun results col_info =>
            if col_info.column_name = "" then results
            else
              dictInsert results col_info.column_name
                (generate_mapping_suggestions fz tf st col_info.column_name
                  (some col_info.sample_values)))
          init).map Prod.fst).Nodup := by
  intro cols
  induction cols with
  | nil => intro init h; exact h
  | cons ci rest ih =>
    intro init h
    rw [List.foldl_cons]
    apply ih
    by_cases hn : ci.column_name = ""
    · rw [if_pos hn]; exact h
    · rw [if_neg hn]; exact nodup_map_fst_dictInsert _ _ _ h

theorem bulk_foldl_mem_keys (fz : FuzzApi) (tf : TfidfApi) (st : MapperState) :
    ∀ (cols : List ColumnInfo) (init : List (String × List MappingSuggestion)) (k : String),
      k ∈ (cols.foldl
          (fun results col_info =>
            if col_info.column_name = "" then results
            else
              dictInsert results col_info.column_name
                (generate_mapping_suggestions fz tf st col_info.column_name
                  (some col_info.sample_values)))
          init).map Prod.fst ↔
        k ∈ init.map Prod.fst ∨ ∃ ci ∈ cols, ci.column_name = k ∧ k ≠ "" := by
  intro cols
  induction cols with
  | nil => intro init k; simp
  | cons ci rest ih =>
    intro init k
    rw [List.foldl_cons, ih, List.exists_mem_cons_iff]
    by_cases hn : ci.column_name = ""
    · rw [if_pos hn]
      have hfalse : ¬(ci.column_name = k ∧ k ≠ "") := by
        rintro ⟨h1, h2⟩
        exact h2 (h1 ▸ hn)
      tauto
    · rw [if_neg hn]
      rw [mem_map_fst_dictInsert]
      have hiff : k = ci.column_name ↔ ci.column_name = k ∧ k ≠ "" := by
        constructor
        · rintro rfl
          exact ⟨rfl, hn⟩
        · rintro ⟨h1, _⟩
          exact h1.symm
      rw [hiff]
      tauto

theorem bulk_foldl_dlookup (fz : FuzzApi) (tf : TfidfApi) (st : MapperState) :
    ∀ (cols : List ColumnInfo) (init : List (String × List MappingSuggestion)) (k : String)
      (v : List MappingSuggestion),
      dlookup k
          (cols.foldl
            (fun results col_info =>
              if col_info.column_name = "" then results
              else
                dictInsert results col_info.column_name
                  (generate_mapping_suggestions fz tf st col_info.column_name
                    (some col_info.sample_values)))
            init) = some v →
        dlookup k init = some v ∨
          ∃ ci ∈ cols, ci.column_name = k ∧ k ≠ "" ∧
            v = generate_mapping_suggestions fz tf st k (some ci.sample_values) := by
  intro cols
  induction cols with
  | nil => intro init k v h; exact Or.inl h
  | cons ci rest ih =>
    intro init k v h
    rw [List.foldl_cons] at h
    rcases ih _ k v h with hbase | ⟨ci2, hci2, h1, h2, h3⟩
    · by_cases hn : ci.column_name = ""
      · rw [if_pos hn] at hbase
        exact Or.inl hbase
      · rw [if_neg hn] at hbase
        rw [dlookup_dictInsert] at hbase
        by_cases he : k = ci.column_name
        · rw [if_pos he] at hbase
          have hv := (Option.some.inj hbase).symm
          refine Or.inr ⟨ci, List.mem_cons_self ci rest, he.symm, ?_, ?_⟩
          · intro hke
            exact hn (he ▸ hke)
          · rw [hv, he]
        · rw [if_neg he] at hbase
          exact Or.inl hbase
    · exact Or.inr ⟨ci2, List.mem_cons_of_mem ci hci2, h1, h2, h3⟩

theorem fzK_bounded : fzK.Bounded := by
  refine ⟨?_, ?_, ?_⟩ <;> intro a b <;> simp only [fzK] <;> split <;> omega

theorem tfK_bounded : tfK.Bounded := by
  intro a b r h
  simp [tfK] at h

theorem semantic_tfK_eval (a b : String) : get_semantic_similarity tfK a b = 0 := by
  unfold get_semantic_similarity
  split
  · rfl
  · simp [tfK]

theorem learning_boost_nil_eval (fz : FuzzApi) (s : String) (f : DataModelField) :
    apply_learning_boost fz [] s f = 0 := by
  rw [apply_learning_boost_eq]
  have h : ((List.map (correctionIncrement fz s f) []).sum) = 0 := rfl
  rw [h]
  exact min_eq_left (by norm_num)

theorem calc_fzK_self_eval (s : String) : calculate_string_similarity fzK s s = 1 := by
  unfold calculate_string_similarity
  simp only [fzK, beq_self_eq_true, if_true]
  norm_num

theorem stK_confidence_eval :
    confidence_score fzK tfK [] [] "member_id" fdK = 2 / 5 := by
  unfold confidence_score
  have h1 : fdK.column = "member_id" := rfl
  have h2 : patternBoost [] (strLower "member_id") = 0 := rfl
  rw [h1, h2, calc_fzK_self_eval, semantic_tfK_eval, learning_boost_nil_eval]
  norm_num

theorem sortByConfDesc_eq_nil_iff {l : List MappingSuggestion} :
    sortByConfDesc l = [] ↔ l = [] := by
  constructor
  · intro h
    by_contra hne
    rcases List.exists_mem_of_ne_nil l hne with ⟨x, hx⟩
    have hx2 := mem_sortByConfDesc.mpr hx
    rw [h] at hx2
    exact absurd hx2 (List.not_mem_nil x)
  · rintro rfl
    rfl

theorem generate_ne_nil_of_confident (fz : FuzzApi) (tf : TfidfApi) (st : MapperState)
    (source_column : String) (sample_values : Option (List (Option String)))
    (f : DataModelField) (hf : f ∈ st.data_model_fields)
    (hc : (1 : ℚ) / 10 < confidence_score fz tf st.correction_history
      (analyze_data_patterns st.pattern_library (sample_values.getD []))
      source_column f) :
    generate_mapping_suggestions fz tf st source_column sample_values ≠ [] := by
  intro hempty
  unfold generate_mapping_suggestions at hempty
  simp only [List.take_eq_nil_iff] at hempty
  rcases hempty with h5 | hnil
  · exact absurd h5 (by norm_num)
  · rw [sortByConfDesc_eq_nil_iff, List.filterMap_eq_nil_iff] at hnil
    have hat := hnil f hf
    simp only at hat
    rw [if_pos hc] at hat
    exact absurd hat (by simp)

theorem generateK_ne_nil :
    generate_mapping_suggestions fzK tfK stK "member_id" none ≠ [] := by
  apply generate_ne_nil_of_confident fzK tfK stK "member_id" none fdK
  · have h : stK.data_model_fields = [fdK] := rfl
    rw [h]
    exact List.mem_singleton.mpr rfl
  · have h1 : stK.correction_history = [] := rfl
    have h2 : analyze_data_patterns stK.pattern_library
        ((none : Option (List (Option String))).getD []) = [] := rfl
    rw [h1, h2, stK_confidence_eval]
    norm_num

/-- C1: for every source column name, sample-value list, data model and
correction history, generate_mapping_suggestions scores each candidate as
0.4 times name similarity plus 0.2 times semantic similarity plus 0.2 times
pattern boost plus 0.2 times learning boost, keeps only candidates whose
confidence is above 0.1, and returns at most 5 suggestions sorted in
descending order of confidence. -/
theorem generate_suggestions_top5_sorted_filtered (fz : FuzzApi) (tf : TfidfApi)
    (st : MapperState) (source_column : String)
    (sample_values : Option (List (Option String))) :
    (generate_mapping_suggestions fz tf st source_column sample_values).length ≤ 5 ∧
    List.Pairwise (fun a b => b.confidence ≤ a.confidence)
      (generate_mapping_suggestions fz tf st source_column sample_values) ∧
    ∀ s ∈ generate_mapping_suggestions fz tf st source_column sample_values,
      (1 : ℚ) / 10 < s.confidence ∧
      ∃ f ∈ st.data_model_fields,
        s.target_column = f.column ∧ s.target_table = f.table ∧
        s.confidence =
          (4 / 10) * calculate_string_similarity fz source_column f.column +
          (2 / 10) * get_semantic_similarity tf source_column f.description +
          (2 / 10) * patternBoost
            (analyze_data_patterns st.pattern_library (sample_values.getD []))
            (strLower f.column) +
          (2 / 10) * apply_learning_boost fz st.correction_history source_column f := by
  refine ⟨?_, ?_, ?_⟩
  · exact List.length_take_le 5 _
  · exact List.Pairwise.sublist (List.take_sublist 5 _) (pairwise_sortByConfDesc _)
  · intro s hs
    rcases generate_mem_spec fz tf st source_column sample_values s hs with
      ⟨f, hf, _, htc, htt, _, hconf, hgt⟩
    exact ⟨hgt, f, hf, htc, htt, hconf⟩

/-- Witness for C1 at a concrete oracle, state and source column. -/
theorem generate_suggestions_top5_sorted_filtered_witness :
    (1 : ℚ) / 10 < sugK.confidence ∧
    ∃ f ∈ stK.data_model_fields,
      sugK.target_column = f.column ∧ sugK.target_table = f.table ∧
      sugK.confidence =
        (4 / 10) * calculate_string_similarity fzK "member_id" f.column +
        (2 / 10) * get_semantic_similarity tfK "member_id" f.description +
        (2 / 10) * patternBoost
          (analyze_data_patterns stK.pattern_library
            ((none : Option (List (Option String))).getD []))
          (strLower f.column) +
        (2 / 10) * apply_learning_boost fzK stK.correction_history "member_id" f :=
  (generate_suggestions_top5_sorted_filtered fzK tfK stK "member_id" none).2.2 sugK
    (headD_mem _ _ generateK_ne_nil)

/-- C2: every suggestion returned by generate_mapping_suggestions has a
confidence in the closed interval [0, 1], given the documented ranges of
the external scorers and the pattern library installed by the constructor. -/
theorem generate_suggestions_confidence_unit_interval (fz : FuzzApi) (tf : TfidfApi)
    (st : MapperState) (source_column : String)
    (sample_values : Option (List (Option String)))
    (hfz : fz.Bounded) (htf : tf.Bounded) (hlib : st.pattern_library = patternLibrary) :
    ∀ s ∈ generate_mapping_suggestions fz tf st source_column sample_values,
      0 ≤ s.confidence ∧ s.confidence ≤ 1 := by
  intro s hs
  rcases generate_mem_spec fz tf st source_column sample_values s hs with
    ⟨f, _, _, _, _, _, hconf, hgt⟩
  constructor
  · linarith
  · rw [hconf]
    unfold confidence_score
    have h1 := calculate_string_similarity_le_one fz hfz source_column f.column
    have h2 := get_semantic_similarity_le_one tf htf source_column f.description
    have h3 : patternBoost
        (analyze_data_patterns st.pattern_library (sample_values.getD []))
        (strLower f.column) ≤ 7 / 5 := by
      rw [hlib]
      exact patternBoost_canonical_le _ _
    have h4 := apply_learning_boost_le_half fz st.correction_history source_column f
    have h5 := calculate_string_similarity_nonneg fz source_column f.column
    have h6 := get_semantic_similarity_nonneg tf htf source_column f.description
    have h7 : 0 ≤ patternBoost
        (analyze_data_patterns st.pattern_library (sample_values.getD []))
        (strLower f.column) :=
      patternBoost_nonneg _ _
        (fun p hp => (analyze_score_bounds st.pattern_library (sample_values.getD []) p hp).1)
    have h8 := apply_learning_boost_nonneg fz st.correction_history source_column f
    linarith

/-- Witness for C2 at a concrete oracle, state and source column. -/
theorem generate_suggestions_confidence_unit_interval_witness :
    0 ≤ sugK.confidence ∧ sugK.confidence ≤ 1 :=
  generate_suggestions_confidence_unit_interval fzK tfK stK "member_id" none
    fzK_bounded tfK_bounded rfl sugK (headD_mem _ _ generateK_ne_nil)

theorem corrK_increment_eval : correctionIncrement fzK "member_id" fdK corrK = 4 / 10 := by
  norm_num [correctionIncrement, corrK, fdK, fzK]

theorem boost_two_corrK : apply_learning_boost fzK [corrK, corrK] "member_id" fdK = 1 / 2 := by
  rw [apply_learning_boost_eq]
  simp only [List.map_cons, List.map_nil, List.sum_cons, List.sum_nil, corrK_increment_eval]
  rw [min_eq_right (by norm_num)]

theorem boost_three_corrK :
    apply_learning_boost fzK ([corrK, corrK] ++ [corrK]) "member_id" fdK = 1 / 2 := by
  rw [apply_learning_boost_eq]
  simp only [List.cons_append, List.nil_append, List.map_cons, List.map_nil,
    List.sum_cons, List.sum_nil, corrK_increment_eval]
  rw [min_eq_right (by norm_num)]

/-- C3 counterexample: with a correction history whose learning boost is
already capped (two exact corrections for the pair), appending the same
correction again does not strictly increase the confidence score computed
for that target. -/
theorem record_correction_no_strict_increase_at_cap :
    ¬(confidence_score fzK tfK ([corrK, corrK] ++ [corrK]) [] "member_id" fdK >
      confidence_score fzK tfK [corrK, corrK] [] "member_id" fdK) := by
  unfold confidence_score
  rw [boost_two_corrK, boost_three_corrK]
  exact lt_irrefl _

/-- C3 amended: appending a correction mapping X to target T to the history
strictly increases the confidence score computed for T on X, provided the
learning boost for (X, T) was still below its 0.5 cap. -/
theorem record_correction_strict_increase_below_cap (fz : FuzzApi) (tf : TfidfApi)
    (pattern_scores : List (String × ℚ)) (history : List Correction)
    (source_column : String) (f : DataModelField) (isug : String)
    (hcap : apply_learning_boost fz history source_column f < 1 / 2) :
    confidence_score fz tf history pattern_scores source_column f <
    confidence_score fz tf (history ++ [⟨source_column, f.table, f.column, isug⟩])
      pattern_scores source_column f := by
  have hb : apply_learning_boost fz history source_column f <
      apply_learning_boost fz (history ++ [⟨source_column, f.table, f.column, isug⟩])
        source_column f := by
    rw [apply_learning_boost_eq] at hcap
    rw [apply_learning_boost_eq, apply_learning_boost_eq]
    have hSlt : (history.map (correctionIncrement fz source_column f)).sum < 1 / 2 := by
      rcases min_lt_iff.mp hcap with h | h
      · exact h
      · exact absurd h (lt_irrefl _)
    rw [min_eq_left (le_of_lt hSlt)]
    rw [List.map_append, List.sum_append]
    simp only [List.map_cons, List.map_nil, List.sum_cons, List.sum_nil]
    have hinc := correctionIncrement_exact_ge fz source_column f isug
    refine lt_min_iff.mpr ⟨by linarith, hSlt⟩
  unfold confidence_score
  linarith

/-- Witness for the amended C3 at a concrete oracle, field and empty
history. -/
theorem record_correction_strict_increase_below_cap_witness :
    confidence_score fzK tfK [] [] "member_id" fdK <
    confidence_score fzK tfK ([] ++ [⟨"member_id", fdK.table, fdK.column, ""⟩]) []
      "member_id" fdK :=
  record_correction_strict_increase_below_cap fzK tfK [] [] "member_id" fdK ""
    (by rw [learning_boost_nil_eval]; norm_num)

/-- C4: with an absent or empty sample-value list, generate_mapping_suggestions
computes an empty pattern-score table (and so raises nothing on it), the
pattern-boost contribution is zero, and every returned confidence reduces to
0.4 times name similarity plus 0.2 times semantic similarity plus 0.2 times
learning boost. -/
theorem generate_suggestions_empty_samples_no_pattern (fz : FuzzApi) (tf : TfidfApi)
    (st : MapperState) (source_column : String)
    (sample_values : Option (List (Option String)))
    (hsv : sample_values = none ∨ sample_values = some []) :
    analyze_data_patterns st.pattern_library (sample_values.getD []) = [] ∧
    ∀ s ∈ generate_mapping_suggestions fz tf st source_column sample_values,
      ∃ f ∈ st.data_model_fields,
        s.confidence =
          (4 / 10) * calculate_string_similarity fz source_column f.column +
          (2 / 10) * get_semantic_similarity tf source_column f.description +
          (2 / 10) * apply_learning_boost fz st.correction_history source_column f := by
  have hgd : sample_values.getD [] = [] := by
    rcases hsv with rfl | rfl <;> rfl
  have hps : analyze_data_patterns st.pattern_library (sample_values.getD []) = [] := by
    rw [hgd]
    rfl
  refine ⟨hps, ?_⟩
  intro s hs
  rcases generate_mem_spec fz tf st source_column sample_values s hs with
    ⟨f, hf, _, _, _, _, hconf, _⟩
  refine ⟨f, hf, ?_⟩
  rw [hconf]
  unfold confidence_score
  rw [hps]
  have hpb : patternBoost [] (strLower f.column) = 0 := rfl
  rw [hpb]
  ring

/-- Witness for C4 at a concrete oracle and state with no sample values. -/
theorem generate_suggestions_empty_samples_no_pattern_witness :
    ∃ f ∈ stK.data_model_fields,
      sugK.confidence =
        (4 / 10) * calculate_string_similarity fzK "member_id" f.column +
        (2 / 10) * get_semantic_similarity tfK "member_id" f.description +
        (2 / 10) * apply_learning_boost fzK stK.correction_history "member_id" f :=
  (generate_suggestions_empty_samples_no_pattern fzK tfK stK "member_id" none
    (Or.inl rfl)).2 sugK (headD_mem _ _ generateK_ne_nil)

/-- C5: at the default database paths (db_url is None), a successful
record_correction appends its row to the mapping_corrections table of
backend/database/crosswalk.duckdb, but the immediate reload reads
database/crosswalk.duckdb, so the refreshed in-memory history does not
contain the new correction. -/
theorem record_correction_default_path_mismatch :
    (record_correction stBug "member_id" "MEMBER" "member_id" none).stores
        "backend/database/crosswalk.duckdb" = [⟨"member_id", "MEMBER", "member_id", ""⟩] ∧
    (record_correction stBug "member_id" "MEMBER" "member_id" none).stores
        "database/crosswalk.duckdb" = [] ∧
    (record_correction stBug "member_id" "MEMBER" "member_id" none).correction_history
        = [] := by
  refine ⟨?_, ?_, ?_⟩ <;> rfl

/-- C6: generate_mapping_suggestions is a pure read: the data model, the
correction history and the pattern library of the state are unchanged by
the call. -/
theorem generate_suggestions_preserves_state (fz : FuzzApi) (tf : TfidfApi)
    (st : MapperState) (source_column : String)
    (sample_values : Option (List (Option String))) :
    (generate_mapping_suggestions_call fz tf st source_column
        sample_values).2.data_model_fields = st.data_model_fields ∧
    (generate_mapping_suggestions_call fz tf st source_column
        sample_values).2.correction_history = st.correction_history ∧
    (generate_mapping_suggestions_call fz tf st source_column
        sample_values).2.pattern_library = st.pattern_library :=
  ⟨rfl, rfl, rfl⟩

/-- C7: apply_learning_boost equals the capped sum of the fixed per-correction
increments (0.3 for an exact correction to the same target, plus 0.1 for a
fuzzy-similar source column to the same target), and lies in [0, 0.5]. -/
theorem apply_learning_boost_increments_and_cap (fz : FuzzApi)
    (history : List Correction) (source_col : String) (target_field : DataModelField) :
    apply_learning_boost fz history source_col target_field =
      min ((history.map (correctionIncrement fz source_col target_field)).sum) (1 / 2) ∧
    0 ≤ apply_learning_boost fz history source_col target_field ∧
    apply_learning_boost fz history source_col target_field ≤ 1 / 2 :=
  ⟨apply_learning_boost_eq fz history source_col target_field,
   apply_learning_boost_nonneg fz history source_col target_field,
   apply_learning_boost_le_half fz history source_col target_field⟩

/-- C8: get_semantic_similarity is total and returns the soft zero score when
either description is empty or when the TF-IDF computation fails. -/
theorem get_semantic_similarity_soft_zero (tf : TfidfApi) (a b : String) :
    ((a.data.isEmpty || b.data.isEmpty) = true → get_semantic_similarity tf a b = 0) ∧
    (tf.cosine (strLower a) (strLower b) = none → get_semantic_similarity tf a b = 0) := by
  constructor
  · intro h
    unfold get_semantic_similarity
    rw [if_pos h]
  · intro h
    unfold get_semantic_similarity
    split_ifs with h2
    · rfl
    · rw [h]

/-- Witness for C8 on an empty description and on a failing oracle. -/
theorem get_semantic_similarity_soft_zero_witness :
    get_semantic_similarity tfK "" "x" = 0 ∧ get_semantic_similarity tfK "ab" "cd" = 0 :=
  ⟨(get_semantic_similarity_soft_zero tfK "" "x").1 (by decide),
   (get_semantic_similarity_soft_zero tfK "ab" "cd").2 rfl⟩

/-- C9: analyze_data_patterns is determined by the first 10 cleaned sample
values, and every per-category pattern score lies in [0, 1]. -/
theorem analyze_data_patterns_first10_unit (lib : List (String × List (List Char → Bool)))
    (sample_values s1 s2 : List (Option String)) :
    (∀ p ∈ analyze_data_patterns lib sample_values, 0 ≤ p.2 ∧ p.2 ≤ 1) ∧
    ((cleanValues s1).take 10 = (cleanValues s2).take 10 →
      analyze_data_patterns lib s1 = analyze_data_patterns lib s2) :=
  ⟨analyze_score_bounds lib sample_values, fun h => analyze_take10_determined lib h⟩

theorem analyzeK_ne_nil : analyze_data_patterns patternLibrary [some "12345"] ≠ [] := by
  intro h
  rw [analyze_eq_core] at h
  have hc : (cleanValues [some "12345"]).take 10 = ["12345"] := by decide
  rw [hc] at h
  simp [analyzeCore, patternLibrary] at h

/-- Witness for C9: a concrete pattern score is in the unit interval, and two
sample lists with the same cleaned 10-value prefix give the same scores. -/
theorem analyze_data_patterns_first10_unit_witness :
    (0 ≤ pK.2 ∧ pK.2 ≤ 1) ∧
    analyze_data_patterns patternLibrary [some " a "] =
      analyze_data_patterns patternLibrary [some "a", none] :=
  ⟨(analyze_data_patterns_first10_unit patternLibrary [some "12345"] [] []).1 pK
      (headD_mem _ _ analyzeK_ne_nil),
   (analyze_data_patterns_first10_unit patternLibrary [] [some " a "]
      [some "a", none]).2 (by decide)⟩

/-- C10: bulk_suggest_mappings returns a dict with exactly one key per
distinct non-empty column name (records without a column name are skipped,
duplicates collapse), and each stored value is the suggestion list computed
for that column name and the sample values of one of its records. -/
theorem bulk_suggest_mappings_spec (fz : FuzzApi) (tf : TfidfApi) (st : MapperState)
    (source_columns : List ColumnInfo) :
    ((bulk_suggest_mappings fz tf st source_columns).map Prod.fst).Nodup ∧
    (∀ k, k ∈ (bulk_suggest_mappings fz tf st source_columns).map Prod.fst ↔
      (k ≠ "" ∧ ∃ ci ∈ source_columns, ci.column_name = k)) ∧
    (∀ k, k ∈ (bulk_suggest_mappings fz tf st source_columns).map Prod.fst →
      ∃ v, dlookup k (bulk_suggest_mappings fz tf st source_columns) = some v) ∧
    (∀ k v, dlookup k (bulk_suggest_mappings fz tf st source_columns) = some v →
      ∃ ci ∈ source_columns, ci.column_name = k ∧
        v = generate_mapping_suggestions fz tf st k (some ci.sample_values)) := by
  refine ⟨?_, ?_, ?_, ?_⟩
  · exact bulk_foldl_nodup fz tf st source_columns [] (by simp)
  · intro k
    unfold bulk_suggest_mappings
    rw [bulk_foldl_mem_keys fz tf st source_columns [] k]
    constructor
    · rintro (h | ⟨ci, hci, h1, h2⟩)
      · simp at h
      · exact ⟨h2, ci, hci, h1⟩
    · rintro ⟨h2, ci, hci, h1⟩
      exact Or.inr ⟨ci, hci, h1, h2⟩
  · intro k hk
    exact dlookup_isSome_of_mem _ k hk
  · intro k v h
    unfold bulk_suggest_mappings at h
    rcases bulk_foldl_dlookup fz tf st source_columns [] k v h with hbase | ⟨ci, hci, h1, _, h3⟩
    · exact absurd hbase (by simp [dlookup])
    · exact ⟨ci, hci, h1, h3⟩

/-- Witness for C10 on a concrete column list with one named and one unnamed
record. -/
theorem bulk_suggest_mappings_spec_witness :
    ((bulk_suggest_mappings fzK tfK stK colsK).map Prod.fst).Nodup ∧
    ∃ ci ∈ colsK, ci.column_name = "member_id" ∧
      generate_mapping_suggestions fzK tfK stK "member_id" (some []) =
        generate_mapping_suggestions fzK tfK stK "member_id" (some ci.sample_values) :=
  ⟨(bulk_suggest_mappings_spec fzK tfK stK colsK).1,
   (bulk_suggest_mappings_spec fzK tfK stK colsK).2.2.2 "member_id"
     (generate_mapping_suggestions fzK tfK stK "member_id" (some [])) (by rfl)⟩
